import Mathlib

/-!
Shallow embedding of `src/centerline/main.py` (the `Centerline` class) and
verification of the specification claims about it.

Coordinates are modelled as rationals (the spec treats them as plain
2-D numbers).  The external geometry capabilities the code calls
(scipy's `Voronoi`, shapely's `within`, `unary_union`, `interpolate`,
`length`) are modelled as an explicit record of oracle functions, per
the spec's collaborator contracts (section 6).  The Python `while` loop
of `_get_coordinates_of_interpolated_points` is embedded with an
explicit termination counter (fuel); `none` models divergence.
-/

namespace Centerline

/-- A 2-D point: a pair of coordinates. -/
abbrev Pt : Type := ℚ × ℚ

/-- A ring: an ordered closed sequence of points. -/
abbrev Ring : Type := List Pt

/-- A polygon: one exterior ring plus zero or more interior rings. -/
structure Polygon where
  exterior : Ring
  interiors : List Ring
deriving DecidableEq

/-- Input geometry variants.  `lineString` and `point` stand for the
non-polygonal shapely geometries that `input_geometry_is_valid`
rejects. -/
inductive Geom : Type where
  | polygon (p : Polygon)
  | multiPolygon (ps : List Polygon)
  | lineString (coords : List Pt)
  | point (p : Pt)
deriving DecidableEq

/-- The two exceptions of `centerline.exceptions`, plus one variant
modelling the Python `TypeError` that arises when a caller-supplied
attribute clobbers an internal numeric field with a value of another
type (dynamic typing artefact of the embedding, never reached in the
claims). -/
inductive CenterlineError : Type where
  | invalidInputType
  | tooFewRidges
  | attributeTypeError
deriving DecidableEq

deriving instance DecidableEq for Except

/-- External geometry capabilities consumed by the code (spec section 6):
scipy `Voronoi` (vertices and ridge index pairs, sentinel -1 for
unbounded), shapely `within`, `unary_union` over 2-point line strings,
and arc-length `interpolate` / `length` on a ring. -/
structure GeometryOps : Type where
  voronoi : List Pt → List Pt × List (ℤ × ℤ)
  within : Pt × Pt → Geom → Bool
  unionLines : List (Pt × Pt) → List (List Pt)
  interpolate : Ring → ℚ → Pt
  length : Ring → ℚ

/-- Python `int()` applied to a rational: truncation toward zero. -/
def pyInt (q : ℚ) : ℤ :=
  if q < 0 then ⌈q⌉ else ⌊q⌋

/-- Python list / numpy indexing, with negative indices counting from
the end (out-of-range access is defaulted; the Voronoi contract keeps
indices in range). -/
def pyGet (l : List Pt) (i : ℤ) : Pt :=
  if 0 ≤ i then l.getD i.toNat (0, 0) else l.getD (l.length - i.natAbs) (0, 0)

/-- `input_geometry_is_valid` (main.py lines 58-64): true exactly for
`Polygon` and `MultiPolygon` inputs. -/
def inputGeometryIsValid (g : Geom) : Bool :=
  match g with
  | Geom.polygon _ => true
  | Geom.multiPolygon _ => true
  | _ => false

/-- All points of a geometry, used for its axis-aligned envelope. -/
def allPoints (g : Geom) : List Pt :=
  match g with
  | Geom.polygon p => p.exterior ++ p.interiors.flatten
  | Geom.multiPolygon ps => (ps.map (fun p => p.exterior ++ p.interiors.flatten)).flatten
  | Geom.lineString cs => cs
  | Geom.point p => [p]

/-- Minimum of a list of rationals (0 on the empty list; a valid
geometry always has points). -/
def minQ : List ℚ → ℚ
  | [] => 0
  | x :: xs => xs.foldl min x

/-- `get_reduction_coordinates` (lines 66-69): integer-truncated minima
of the envelope's x and y coordinates. -/
def getReductionCoordinates (g : Geom) : ℤ × ℤ :=
  (pyInt (minQ ((allPoints g).map Prod.fst)), pyInt (minQ ((allPoints g).map Prod.snd)))

/-- `_create_point_with_reduced_coordinates` (lines 185-186). -/
def createPointWithReducedCoordinates (mx my : ℤ) (x y : ℚ) : Pt :=
  (x - (mx : ℚ), y - (my : ℚ))

/-- `_create_point_with_restored_coordinates` (lines 120-121). -/
def createPointWithRestoredCoordinates (mx my : ℤ) (x y : ℚ) : Pt :=
  (x + (mx : ℚ), y + (my : ℚ))

/-- `ridge_is_finite` (lines 117-118): `-1 not in ridge` for the
two-element ridge index pair. -/
def ridgeIsFinite (ridge : ℤ × ℤ) : Bool :=
  !(ridge.1 == -1 || ridge.2 == -1)

/-- The coordinate tuples of a 2-point line string (`linestring.coords`). -/
def lineStringCoords (ls : Pt × Pt) : List Pt :=
  [ls.1, ls.2]

/-- The components of one coordinate tuple: a planar point has the two
components x and y. -/
def coordinateComponents (p : Pt) : List ℚ :=
  [p.1, p.2]

/-- `linestring_is_within_input_geometry` (lines 123-127):
`linestring.within(self._input_geom) and len(linestring.coords[0]) > 1`.
The second conjunct is the length of the *first coordinate tuple* of
the line string, i.e. the number of components of a point. -/
def linestringIsWithinInputGeometry (ops : GeometryOps) (g : Geom) (ls : Pt × Pt) : Bool :=
  ops.within ls g && decide (1 < (coordinateComponents ((lineStringCoords ls).headD (0, 0))).length)

/-- The 2-point line string built from a finite ridge: both endpoint
vertices with the reduction origin added back (lines 92-98). -/
def ridgeSegment (mx my : ℤ) (vertices : List Pt) (ridge : ℤ × ℤ) : Pt × Pt :=
  (createPointWithRestoredCoordinates mx my (pyGet vertices ridge.1).1 (pyGet vertices ridge.1).2,
    createPointWithRestoredCoordinates mx my (pyGet vertices ridge.2).1 (pyGet vertices ridge.2).2)

/-- The for-loop of `construct_centerline` (lines 90-101): build a
restored 2-point line string from every finite ridge and keep the ones
passing `linestring_is_within_input_geometry`, in ridge order. -/
def ridgeLinestrings (ops : GeometryOps) (g : Geom) (mx my : ℤ) (vertices : List Pt) :
    List (ℤ × ℤ) → List (Pt × Pt)
  | [] => []
  | ridge :: rest =>
    if ridgeIsFinite ridge then
      let ls := ridgeSegment mx my vertices ridge
      if linestringIsWithinInputGeometry ops g ls then
        ls :: ridgeLinestrings ops g mx my vertices rest
      else
        ridgeLinestrings ops g mx my vertices rest
    else
      ridgeLinestrings ops g mx my vertices rest

/-- The `while interpolation_distance < line_length` loop of
`_get_coordinates_of_interpolated_points` (lines 171-183), with an
explicit fuel counter; `none` models a loop that has not finished
within the given fuel. -/
def interpLoop (interp : ℚ → Pt) (mx my : ℤ) (dist L : ℚ) : ℚ → Nat → Option (List Pt)
  | d, 0 =>
    if d < L then none else some []
  | d, Nat.succ fuel =>
    if d < L then
      (interpLoop interp mx my dist L (d + dist) fuel).map
        (fun rest =>
          createPointWithReducedCoordinates mx my (interp d).1 (interp d).2 :: rest)
    else
      some []

/-- Fuel sufficient for the interpolation loop whenever `0 < dist`
(and equal to 1, forcing the divergence value `none`, when `dist = 0`
and `0 < L`). -/
def interpFuel (dist L : ℚ) : Nat :=
  (⌈L / dist⌉).toNat + 1

/-- `_get_coordinates_of_interpolated_points` (lines 171-183): starting
at `d = dist`, repeatedly emit the origin-reduced interpolation of the
running distance and advance by `dist` while the running distance is
below the line length. -/
def getCoordinatesOfInterpolatedPoints (ops : GeometryOps) (line : Ring) (dist : ℚ)
    (mx my : ℤ) : Option (List Pt) :=
  interpLoop (ops.interpolate line) mx my dist (ops.length line) dist
    (interpFuel dist (ops.length line))

/-- `_get_coordinates_of_first_point` (lines 161-164). -/
def getCoordinatesOfFirstPoint (mx my : ℤ) (line : Ring) : Pt :=
  createPointWithReducedCoordinates mx my (line.headD (0, 0)).1 (line.headD (0, 0)).2

/-- `_get_coordinates_of_last_point` (lines 166-169). -/
def getCoordinatesOfLastPoint (mx my : ℤ) (line : Ring) : Pt :=
  createPointWithReducedCoordinates mx my (line.getLastD (0, 0)).1 (line.getLastD (0, 0)).2

/-- `_get_interpolated_boundary` (lines 149-159):
`[first_point] + intermediate_points + [last_point]`. -/
def getInterpolatedBoundary (ops : GeometryOps) (boundary : Ring) (dist : ℚ)
    (mx my : ℤ) : Option (List Pt) :=
  match getCoordinatesOfInterpolatedPoints ops boundary dist mx my with
  | none => none
  | some mid =>
    some ([getCoordinatesOfFirstPoint mx my boundary] ++ mid
      ++ [getCoordinatesOfLastPoint mx my boundary])

/-- `extract_polygons_from_input_geometry` (lines 140-144).  The Python
`else` branch wraps the input itself in a tuple; after validation it is
a `Polygon`, and the non-polygon variants are unreachable there. -/
def extractPolygonsFromInputGeometry (g : Geom) : List Polygon :=
  match g with
  | Geom.multiPolygon ps => ps
  | Geom.polygon p => [p]
  | _ => []

/-- `_polygon_has_interior_rings` (lines 146-147). -/
def polygonHasInteriorRings (p : Polygon) : Bool :=
  decide (0 < p.interiors.length)

/-- Concatenation of fallible list producers: `none` as soon as one
element diverges, otherwise the concatenation of all outputs. -/
def mapJoinOption {α β : Type} (f : α → Option (List β)) : List α → Option (List β)
  | [] => some []
  | a :: rest =>
    match f a, mapJoinOption f rest with
    | some xs, some ys => some (xs ++ ys)
    | _, _ => none

/-- The per-polygon body of `get_densified_borders` (lines 132-136):
the interpolated exterior, then every interior ring when present. -/
def densifyPolygon (ops : GeometryOps) (dist : ℚ) (mx my : ℤ) (p : Polygon) :
    Option (List Pt) :=
  match getInterpolatedBoundary ops p.exterior dist mx my,
      (if polygonHasInteriorRings p then
        mapJoinOption (fun r => getInterpolatedBoundary ops r dist mx my) p.interiors
      else some []) with
  | some exteriorPts, some interiorPts => some (exteriorPts ++ interiorPts)
  | _, _ => none

/-- `get_densified_borders` (lines 129-138). -/
def getDensifiedBorders (ops : GeometryOps) (g : Geom) (dist : ℚ) (mx my : ℤ) :
    Option (List Pt) :=
  mapJoinOption (densifyPolygon ops dist mx my) (extractPolygonsFromInputGeometry g)

/-- `_get_voronoi_vertices_and_ridges` (lines 108-115). -/
def getVoronoiVerticesAndRidges (ops : GeometryOps) (g : Geom) (dist : ℚ) (mx my : ℤ) :
    Option (List Pt × List (ℤ × ℤ)) :=
  (getDensifiedBorders ops g dist mx my).map ops.voronoi

/-- `construct_centerline` (lines 75-106): build the filtered ridge
line strings; raise `TooFewRidgesError` when fewer than 2 of them
survive, otherwise return their union. -/
def constructCenterline (ops : GeometryOps) (g : Geom) (dist : ℚ) (mx my : ℤ) :
    Option (Except CenterlineError (List (List Pt))) :=
  match getVoronoiVerticesAndRidges ops g dist mx my with
  | none => none
  | some (vertices, ridges) =>
    let linestrings := ridgeLinestrings ops g mx my vertices ridges
    some (if linestrings.length < 2 then Except.error CenterlineError.tooFewRidges
      else Except.ok (ops.unionLines linestrings))

/-- A Python attribute value: the internal fields hold a geometry, a
rational (the stored interpolation distance) or an integer (the
reduction origin components); caller-supplied attributes may also carry
an arbitrary value of type `V`. -/
inductive Val (V : Type) : Type where
  | rat (q : ℚ)
  | int (z : ℤ)
  | geom (g : Geom)
  | user (v : V)
deriving DecidableEq

/-- The instance `__dict__` of the object under construction: a lookup
from attribute names to values. -/
def PyAttrs (V : Type) : Type :=
  String → Option (Val V)

/-- `setattr(self, k, v)`: overwrite one entry of the instance dict. -/
def pySetattr {V : Type} (d : PyAttrs V) (k : String) (v : Val V) : PyAttrs V :=
  fun k0 => if k0 = k then some v else d k0

/-- The empty instance dict. -/
def emptyAttrs {V : Type} : PyAttrs V :=
  fun _ => none

/-- `assign_attributes_to_instance` (lines 71-73): `setattr` for every
supplied key, in order (so a later duplicate key wins). -/
def assignAttributesToInstance {V : Type} (d : PyAttrs V) : List (String × Val V) → PyAttrs V
  | [] => d
  | kv :: rest => assignAttributesToInstance (pySetattr d kv.1 kv.2) rest

/-- The dict semantics of the `**attributes` map itself: last write
wins on duplicate keys, `none` for unsupplied keys. -/
def suppliedValue {V : Type} : List (String × Val V) → String → Option (Val V)
  | [], _ => none
  | kv :: rest, k =>
    match suppliedValue rest k with
    | some v => some v
    | none => if k = kv.1 then some kv.2 else none

/-- The internal fields `__init__` stores on the instance before
assigning the caller attributes. -/
def internalFields : List String :=
  ["_input_geom", "_interpolation_dist", "_min_x", "_min_y"]

/-- The constructed object: the final instance dict plus the merged
multi-line (the sequence of line pieces handed to the
`MultiLineString` base constructor). -/
structure CenterlineResult (V : Type) : Type where
  inst : PyAttrs V
  geoms : List (List Pt)

/-- The instance dict after the internal assignments of `__init__`
(lines 47-53): `self._input_geom`, `self._interpolation_dist` (the
absolute distance), then `self._min_x` and `self._min_y` from the
reduction coordinates. -/
def initialInstance {V : Type} (g : Geom) (d : ℚ) : PyAttrs V :=
  pySetattr (pySetattr (pySetattr (pySetattr emptyAttrs
    "_input_geom" (Val.geom g))
    "_interpolation_dist" (Val.rat |d|))
    "_min_x" (Val.int (getReductionCoordinates g).1))
    "_min_y" (Val.int (getReductionCoordinates g).2)

/-- `__init__` (lines 29-56): store the input geometry and the absolute
interpolation distance, validate (raising `InvalidInputTypeError`
before any numeric work and before the reduction origin is computed),
compute and store the reduction origin, assign the caller attributes
via `setattr`, then run `construct_centerline` reading the four
internal fields back from the instance (so a caller attribute that
overwrote one of them is used; an overwrite with a value of the wrong
type makes the arithmetic fail, modelled by `attributeTypeError`).
`none` models a non-terminating interpolation loop. -/
def pyInit {V : Type} (ops : GeometryOps) (g : Geom) (d : ℚ)
    (attributes : List (String × Val V)) :
    Option (Except CenterlineError (CenterlineResult V)) :=
  if inputGeometryIsValid g = false then
    some (Except.error CenterlineError.invalidInputType)
  else
    let inst2 := assignAttributesToInstance (initialInstance g d) attributes
    match inst2 "_input_geom", inst2 "_interpolation_dist",
        inst2 "_min_x", inst2 "_min_y" with
    | some (Val.geom g2), some (Val.rat dist2), some (Val.int mx2), some (Val.int my2) =>
      (constructCenterline ops g2 dist2 mx2 my2).map
        (fun r => r.map (fun pieces => CenterlineResult.mk inst2 pieces))
    | _, _, _, _ => some (Except.error CenterlineError.attributeTypeError)

/-- Attribute lookup on the constructed object. -/
def resultGetattr {V : Type} (r : CenterlineResult V) (k : String) : Option (Val V) :=
  r.inst k

/-- The geometric part of a construction outcome, forgetting the
attribute dict. -/
def geomsOf {V : Type} (o : Option (Except CenterlineError (CenterlineResult V))) :
    Option (Except CenterlineError (List (List Pt))) :=
  o.map (fun r => r.map (fun c => c.geoms))

/-- Whether a construction outcome is a successful result. -/
def isOkResult {V : Type} (o : Option (Except CenterlineError (CenterlineResult V))) : Bool :=
  match o with
  | some (Except.ok _) => true
  | _ => false

/-- Attribute lookup through a construction outcome (`none` on
failure). -/
def outcomeGetattr {V : Type} (o : Option (Except CenterlineError (CenterlineResult V)))
    (k : String) : Option (Val V) :=
  match o with
  | some (Except.ok r) => resultGetattr r k
  | _ => none

section Fixtures

/-- A concrete 10 x 10 square ring. -/
def sqRing : Ring := [(0, 0), (10, 0), (10, 10), (0, 10), (0, 0)]

/-- The square as a polygon input geometry. -/
def sqGeom : Geom := Geom.polygon (Polygon.mk sqRing [])

/-- A non-polygonal input geometry. -/
def lineGeom : Geom := Geom.lineString [(0, 0), (1, 1)]

/-- Concrete external capabilities used to evaluate the pipeline on
closed inputs: a fixed Voronoi answer, a containment test that accepts
everything, a union that keeps each segment as its own line piece,
arc-length interpolation along the diagonal, and ring length 4. -/
def opsA : GeometryOps where
  voronoi := fun _ => ([(1, 1), (2, 1), (3, 1)], [(0, 1), (1, 2), (-1, 0)])
  within := fun _ _ => true
  unionLines := fun segs => segs.map (fun s => [s.1, s.2])
  interpolate := fun _ q => (q, q)
  length := fun _ => 4

/-- A second, different set of external capabilities, used to show that
an invalid input fails identically under any capabilities. -/
def opsB : GeometryOps where
  voronoi := fun _ => ([], [])
  within := fun _ _ => false
  unionLines := fun _ => []
  interpolate := fun _ _ => (0, 0)
  length := fun _ => 1

/-- Capabilities whose union merges the two surviving collinear
segments `(1,1)-(2,1)` and `(2,1)-(3,1)` into the single line piece
`(1,1)-(3,1)`, as the merger contract allows for touching collinear
segments. -/
def opsMerge : GeometryOps where
  voronoi := fun _ => ([(1, 1), (2, 1), (3, 1)], [(0, 1), (1, 2)])
  within := fun _ _ => true
  unionLines := fun _ => [[(1, 1), (3, 1)]]
  interpolate := fun _ q => (q, q)
  length := fun _ => 4

end Fixtures

section Lemmas

/-- The degeneracy conjunct of the filter is vacuous: the first
coordinate tuple of a planar line string always has the two components
x and y, so `len(linestring.coords[0]) > 1` always holds and the filter
reduces to the containment test alone. -/
theorem linestringIsWithinInputGeometry_eq_within (ops : GeometryOps) (g : Geom)
    (ls : Pt × Pt) : linestringIsWithinInputGeometry ops g ls = ops.within ls g := by
  simp [linestringIsWithinInputGeometry, coordinateComponents, lineStringCoords]

/-- Characterization of the ridge loop: it keeps exactly the segments
of the finite ridges that pass the containment filter, in ridge
order. -/
theorem ridgeLinestrings_eq_filter (ops : GeometryOps) (g : Geom) (mx my : ℤ)
    (vertices : List Pt) (rs : List (ℤ × ℤ)) :
    ridgeLinestrings ops g mx my vertices rs =
      ((rs.filter (fun r => ridgeIsFinite r)).map (ridgeSegment mx my vertices)).filter
        (fun ls => linestringIsWithinInputGeometry ops g ls) := by
  induction rs with
  | nil => simp [ridgeLinestrings]
  | cons r rest ih =>
    by_cases hf : ridgeIsFinite r
    · by_cases hw : linestringIsWithinInputGeometry ops g (ridgeSegment mx my vertices r)
      · simp [ridgeLinestrings, hf, hw, ih, List.filter_cons, List.map_cons]
      · simp [ridgeLinestrings, hf, hw, ih, List.filter_cons, List.map_cons]
    · simp [ridgeLinestrings, hf, ih, List.filter_cons]

/-- Every segment the loop keeps passed the containment test against
the input geometry. -/
theorem mem_ridgeLinestrings_within (ops : GeometryOps) (g : Geom) (mx my : ℤ)
    (vertices : List Pt) (rs : List (ℤ × ℤ)) (ls : Pt × Pt)
    (h : ls ∈ ridgeLinestrings ops g mx my vertices rs) : ops.within ls g = true := by
  rw [ridgeLinestrings_eq_filter] at h
  have := (List.mem_filter.mp h).2
  rwa [linestringIsWithinInputGeometry_eq_within] at this

end Lemmas

section ClaimC6

/-- Claim C6: restoring a reduced point with the same reduction-origin
pair is an exact round-trip: for every origin `(mx, my)` and point
`(x, y)`, `_create_point_with_restored_coordinates` applied to
`_create_point_with_reduced_coordinates` gives back `(x, y)`. -/
theorem reduction_restoration_roundtrip (mx my : ℤ) (x y : ℚ) :
    createPointWithRestoredCoordinates mx my
        (createPointWithReducedCoordinates mx my x y).1
        (createPointWithReducedCoordinates mx my x y).2 = (x, y) := by
  simp [createPointWithRestoredCoordinates, createPointWithReducedCoordinates]

end ClaimC6

section ClaimC7

/-- Claim C7: a ridge is treated as finite exactly when neither of its
two vertex indices is the sentinel -1, and the segment-building loop
ignores every non-finite ridge: its output on a ridge list equals its
output on the sublist of finite ridges, so vertices are only ever
indexed through non-sentinel indices when endpoints are built. -/
theorem ridge_is_finite_iff_and_only_finite_contribute :
    (∀ ridge : ℤ × ℤ, ridgeIsFinite ridge = true ↔ (ridge.1 ≠ -1 ∧ ridge.2 ≠ -1)) ∧
      (∀ (ops : GeometryOps) (g : Geom) (mx my : ℤ) (vertices : List Pt)
        (rs : List (ℤ × ℤ)),
        ridgeLinestrings ops g mx my vertices rs =
          ridgeLinestrings ops g mx my vertices (rs.filter (fun r => ridgeIsFinite r))) := by
  constructor
  · intro ridge
    simp [ridgeIsFinite, not_or]
  · intro ops g mx my vertices rs
    rw [ridgeLinestrings_eq_filter, ridgeLinestrings_eq_filter, List.filter_filter]
    simp

end ClaimC7

section ClaimC2

/-- Claim C2 (evaluation at the failing input): a Voronoi output with
two coincident vertices and the finite ridge `(0, 1)` builds the
degenerate segment `((5,5), (5,5))`, whose endpoints coincide, and the
ridge filter keeps it: it reaches the merger.  The second conjunct of
`linestring_is_within_input_geometry` tests the component count of the
first coordinate tuple, which is always 2, so no degenerate segment is
ever discarded. -/
theorem degenerate_segment_reaches_merger :
    ridgeLinestrings opsA sqGeom 0 0 [(5, 5), (5, 5)] [(0, 1)] = [((5, 5), (5, 5))] := by
  with_unfolding_all decide

end ClaimC2

section LoopLemmas

/-- Closed-form evaluation of the interpolation loop: with a positive
step and fuel at least `k` covering the remaining length, the loop
finishes and emits the points at the running distances
`d, d + dist, ...`, exactly while the running distance is below the
line length. -/
theorem interpLoop_spec (interp : ℚ → Pt) (mx my : ℤ) (dist L : ℚ) :
    ∀ (k : Nat) (d : ℚ) (fuel : Nat), k ≤ fuel → L - d ≤ (k : ℚ) * dist →
      ∃ n : Nat, n ≤ k ∧
        interpLoop interp mx my dist L d fuel =
          some ((List.range n).map (fun i : ℕ =>
            createPointWithReducedCoordinates mx my
              (interp (d + (i : ℚ) * dist)).1 (interp (d + (i : ℚ) * dist)).2)) ∧
        (∀ i : Nat, i < n → d + (i : ℚ) * dist < L) ∧ ¬(d + (n : ℚ) * dist < L) := by
  intro k
  induction k with
  | zero =>
    intro d fuel _ hcov
    have hdL : ¬ d < L := by push_cast at hcov; intro h; linarith
    refine ⟨0, le_refl 0, ?_, ?_, ?_⟩
    · cases fuel with
      | zero => simp [interpLoop, hdL]
      | succ f => simp [interpLoop, hdL]
    · intro i hi; omega
    · simpa using hdL
  | succ k ih =>
    intro d fuel hfuel hcov
    by_cases hdL : d < L
    · cases fuel with
      | zero => omega
      | succ f =>
        have hcov2 : L - (d + dist) ≤ (k : ℚ) * dist := by push_cast at hcov ⊢; linarith
        obtain ⟨n, hnk, heq, hlt, hstop⟩ := ih (d + dist) f (by omega) hcov2
        refine ⟨n + 1, by omega, ?_, ?_, ?_⟩
        · have hmap : (List.range (n + 1)).map (fun i : ℕ =>
              createPointWithReducedCoordinates mx my
                (interp (d + (i : ℚ) * dist)).1 (interp (d + (i : ℚ) * dist)).2) =
              createPointWithReducedCoordinates mx my (interp d).1 (interp d).2 ::
                (List.range n).map (fun i : ℕ =>
                  createPointWithReducedCoordinates mx my
                    (interp (d + dist + (i : ℚ) * dist)).1
                    (interp (d + dist + (i : ℚ) * dist)).2) := by
            rw [List.range_succ_eq_map, List.map_cons, List.map_map]
            congr 1
            · have harg : d + ((0 : ℕ) : ℚ) * dist = d := by push_cast; ring
              rw [harg]
            · apply List.map_congr_left
              intro i _
              simp only [Function.comp]
              have harg : d + ((i : ℚ) + 1) * dist = d + dist + (i : ℚ) * dist := by ring
              push_cast
              rw [harg]
          rw [hmap]
          simp [interpLoop, hdL, heq]
        · intro i hi
          cases i with
          | zero => simpa using hdL
          | succ j =>
            have := hlt j (by omega)
            have harg : d + ((Nat.succ j : ℕ) : ℚ) * dist = d + dist + (j : ℚ) * dist := by
              push_cast; ring
            rw [harg]; exact this
        · have harg : d + (((n + 1 : ℕ)) : ℚ) * dist = d + dist + (n : ℚ) * dist := by
            push_cast; ring
          rw [harg]; exact hstop
    · refine ⟨0, by omega, ?_, ?_, ?_⟩
      · cases fuel with
        | zero => simp [interpLoop, hdL]
        | succ f => simp [interpLoop, hdL]
      · intro i hi; omega
      · simpa using hdL

/-- The fuel `interpFuel` suffices for the loop started at `d = dist`
when the step is positive. -/
theorem interpFuel_covers (dist L : ℚ) (hd : 0 < dist) :
    L - dist ≤ (((⌈L / dist⌉).toNat : ℕ) : ℚ) * dist := by
  have h1 : L / dist ≤ ((⌈L / dist⌉ : ℤ) : ℚ) := Int.le_ceil (L / dist)
  have h2 : ((⌈L / dist⌉ : ℤ) : ℚ) ≤ (((⌈L / dist⌉).toNat : ℕ) : ℚ) := by
    have := Int.self_le_toNat ⌈L / dist⌉
    exact_mod_cast this
  have h3 : L / dist * dist ≤ (((⌈L / dist⌉).toNat : ℕ) : ℚ) * dist :=
    mul_le_mul_of_nonneg_right (le_trans h1 h2) (le_of_lt hd)
  rw [div_mul_cancel₀ L (ne_of_gt hd)] at h3
  linarith

/-- `_get_coordinates_of_interpolated_points` with a positive step
emits exactly the origin-reduced interpolations at the arc-length
positions `1*dist, 2*dist, ...` strictly below the ring length. -/
theorem getCoordinatesOfInterpolatedPoints_spec (ops : GeometryOps) (line : Ring)
    (mx my : ℤ) (dist : ℚ) (hd : 0 < dist) :
    ∃ n : Nat,
      getCoordinatesOfInterpolatedPoints ops line dist mx my =
        some ((List.range n).map (fun k : ℕ =>
          createPointWithReducedCoordinates mx my
            (ops.interpolate line (((k : ℚ) + 1) * dist)).1
            (ops.interpolate line (((k : ℚ) + 1) * dist)).2)) ∧
      (∀ k : Nat, k < n → ((k : ℚ) + 1) * dist < ops.length line) ∧
      ¬(((n : ℚ) + 1) * dist < ops.length line) := by
  obtain ⟨n, _, heq, hlt, hstop⟩ :=
    interpLoop_spec (ops.interpolate line) mx my dist (ops.length line)
      (⌈ops.length line / dist⌉).toNat dist ((⌈ops.length line / dist⌉).toNat + 1)
      (by omega) (interpFuel_covers dist (ops.length line) hd)
  refine ⟨n, ?_, ?_, ?_⟩
  · rw [getCoordinatesOfInterpolatedPoints, interpFuel, heq]
    congr 1
    apply List.map_congr_left
    intro k _
    have harg : dist + (k : ℚ) * dist = ((k : ℚ) + 1) * dist := by ring
    rw [harg]
  · intro k hk
    have := hlt k hk
    have harg : dist + (k : ℚ) * dist = ((k : ℚ) + 1) * dist := by ring
    rwa [harg] at this
  · have harg : dist + (n : ℚ) * dist = ((n : ℚ) + 1) * dist := by ring
    rwa [harg] at hstop

end LoopLemmas

section ClaimC4

/-- Claim C4: for every ring, the densifier emits exactly the ring's
first vertex, then one origin-reduced interpolated point at each
arc-length position `k * |interpolation_dist|` for `k = 1, 2, ...`
strictly while that position is below the ring's length (stopping once
it reaches or exceeds it), then the ring's last vertex; when
`|interpolation_dist|` exceeds the ring's length no intermediate point
is emitted. -/
theorem densifier_ring_output (ops : GeometryOps) (boundary : Ring) (mx my : ℤ)
    (d0 : ℚ) (h : d0 ≠ 0) :
    ∃ n : Nat,
      getInterpolatedBoundary ops boundary |d0| mx my =
        some (getCoordinatesOfFirstPoint mx my boundary ::
          ((List.range n).map (fun k : ℕ =>
            createPointWithReducedCoordinates mx my
              (ops.interpolate boundary (((k : ℚ) + 1) * |d0|)).1
              (ops.interpolate boundary (((k : ℚ) + 1) * |d0|)).2) ++
            [getCoordinatesOfLastPoint mx my boundary])) ∧
      (∀ k : ℕ, k < n → ((k : ℚ) + 1) * |d0| < ops.length boundary) ∧
      ¬(((n : ℚ) + 1) * |d0| < ops.length boundary) ∧
      (ops.length boundary < |d0| → n = 0) := by
  have hd : 0 < |d0| := abs_pos.mpr h
  obtain ⟨n, heq, hlt, hstop⟩ :=
    getCoordinatesOfInterpolatedPoints_spec ops boundary mx my |d0| hd
  refine ⟨n, ?_, hlt, hstop, ?_⟩
  · simp [getInterpolatedBoundary, heq]
  · intro hLd
    cases n with
    | zero => rfl
    | succ m =>
      exfalso
      have h0 := hlt 0 (by omega)
      push_cast at h0
      linarith

/-- Witness for claim C4 at a concrete input: step 3, ring length 4,
diagonal interpolation. -/
theorem densifier_ring_output_witness :
    (3 : ℚ) ≠ 0 ∧
      (∃ n : Nat,
        getInterpolatedBoundary opsA sqRing |(3 : ℚ)| 0 0 =
          some (getCoordinatesOfFirstPoint 0 0 sqRing ::
            ((List.range n).map (fun k : ℕ =>
              createPointWithReducedCoordinates 0 0
                (opsA.interpolate sqRing (((k : ℚ) + 1) * |(3 : ℚ)|)).1
                (opsA.interpolate sqRing (((k : ℚ) + 1) * |(3 : ℚ)|)).2) ++
              [getCoordinatesOfLastPoint 0 0 sqRing])) ∧
        (∀ k : ℕ, k < n → ((k : ℚ) + 1) * |(3 : ℚ)| < opsA.length sqRing) ∧
        ¬(((n : ℚ) + 1) * |(3 : ℚ)| < opsA.length sqRing) ∧
        (opsA.length sqRing < |(3 : ℚ)| → n = 0)) :=
  ⟨by norm_num, densifier_ring_output opsA sqRing 0 0 3 (by norm_num)⟩

end ClaimC4

section ClaimC9

/-- Claim C9: for a ring of positive length, the intermediate-point
interpolation loop terminates (some fuel makes it finish) exactly when
the absolute value of the caller-supplied interpolation distance is
strictly positive; with distance 0 the running distance never advances
and no amount of fuel finishes the loop. -/
theorem interpolation_loop_terminates_iff (interp : ℚ → Pt) (mx my : ℤ) (d L : ℚ)
    (hL : 0 < L) :
    (∃ fuel : Nat, (interpLoop interp mx my |d| L |d| fuel).isSome = true) ↔ 0 < |d| := by
  constructor
  · rintro ⟨fuel, hf⟩
    by_contra hnd
    have h0 : |d| = 0 := le_antisymm (not_lt.mp hnd) (abs_nonneg d)
    rw [h0] at hf
    have hnone : ∀ fu : Nat, interpLoop interp mx my 0 L 0 fu = none := by
      intro fu
      induction fu with
      | zero => simp [interpLoop, hL]
      | succ f ihf => simp [interpLoop, hL, ihf]
    rw [hnone fuel] at hf
    simp at hf
  · intro hd
    obtain ⟨n, _, heq, _, _⟩ :=
      interpLoop_spec interp mx my |d| L (⌈L / |d|⌉).toNat |d| (⌈L / |d|⌉).toNat
        (le_refl _) (interpFuel_covers |d| L hd)
    exact ⟨(⌈L / |d|⌉).toNat, by rw [heq]; rfl⟩

/-- Witness for claim C9 at a concrete input: distance 2, ring
length 1. -/
theorem interpolation_loop_terminates_iff_witness :
    0 < (1 : ℚ) ∧
      ((∃ fuel : Nat,
        (interpLoop (fun q => (q, q)) 0 0 |(2 : ℚ)| 1 |(2 : ℚ)| fuel).isSome = true) ↔
        0 < |(2 : ℚ)|) :=
  ⟨by norm_num, interpolation_loop_terminates_iff (fun q => (q, q)) 0 0 2 1 (by norm_num)⟩

end ClaimC9

section AttrLemmas

/-- Assigning attributes none of which bear the key `k` leaves the
lookup of `k` unchanged. -/
theorem assignAttributes_lookup_of_ne {V : Type} (attrs : List (String × Val V))
    (d : PyAttrs V) (k : String) (h : ∀ kv ∈ attrs, kv.1 ≠ k) :
    assignAttributesToInstance d attrs k = d k := by
  induction attrs generalizing d with
  | nil => rfl
  | cons kv rest ih =>
    have hk : kv.1 ≠ k := h kv (List.mem_cons_self kv rest)
    have hrest : ∀ kv2 ∈ rest, kv2.1 ≠ k := fun kv2 hm => h kv2 (List.mem_cons_of_mem kv hm)
    have hstep : assignAttributesToInstance d (kv :: rest) =
        assignAttributesToInstance (pySetattr d kv.1 kv.2) rest := rfl
    rw [hstep, ih (pySetattr d kv.1 kv.2) hrest]
    simp [pySetattr, Ne.symm hk]

/-- Assigning an attribute map that does not supply the key `k` leaves
the lookup of `k` unchanged. -/
theorem assignAttributes_lookup_of_none {V : Type} (attrs : List (String × Val V))
    (d : PyAttrs V) (k : String) (h : suppliedValue attrs k = none) :
    assignAttributesToInstance d attrs k = d k := by
  induction attrs generalizing d with
  | nil => rfl
  | cons kv rest ih =>
    have hm : suppliedValue (kv :: rest) k =
        (match suppliedValue rest k with
          | some v => some v
          | none => if k = kv.1 then some kv.2 else none) := rfl
    rw [hm] at h
    have hstep : assignAttributesToInstance d (kv :: rest) =
        assignAttributesToInstance (pySetattr d kv.1 kv.2) rest := rfl
    cases hr : suppliedValue rest k with
    | some v => rw [hr] at h; exact absurd h (by simp)
    | none =>
      rw [hr] at h
      by_cases hkk : k = kv.1
      · rw [if_pos hkk] at h; exact absurd h (by simp)
      · rw [hstep, ih (pySetattr d kv.1 kv.2) hr]
        simp [pySetattr, hkk]

/-- The lookup of a supplied key after attribute assignment is the
last value supplied for it. -/
theorem assignAttributes_lookup_of_supplied {V : Type} (attrs : List (String × Val V))
    (d : PyAttrs V) (k : String) (v : Val V) (h : suppliedValue attrs k = some v) :
    assignAttributesToInstance d attrs k = some v := by
  induction attrs generalizing d with
  | nil => exact absurd h (by simp [suppliedValue])
  | cons kv rest ih =>
    have hm : suppliedValue (kv :: rest) k =
        (match suppliedValue rest k with
          | some v2 => some v2
          | none => if k = kv.1 then some kv.2 else none) := rfl
    rw [hm] at h
    have hstep : assignAttributesToInstance d (kv :: rest) =
        assignAttributesToInstance (pySetattr d kv.1 kv.2) rest := rfl
    rw [hstep]
    cases hr : suppliedValue rest k with
    | some v2 =>
      rw [hr] at h
      have hv : v2 = v := by injection h
      exact ih (pySetattr d kv.1 kv.2) (hv ▸ hr)
    | none =>
      rw [hr] at h
      by_cases hkk : k = kv.1
      · rw [if_pos hkk] at h
        rw [assignAttributes_lookup_of_none rest (pySetattr d kv.1 kv.2) k hr]
        show (if k = kv.1 then some kv.2 else d k) = some v
        rw [if_pos hkk]
        exact h
      · rw [if_neg hkk] at h
        exact absurd h (by simp)

/-- The internal field `_input_geom` of the freshly initialized
instance. -/
theorem initialInstance_input_geom {V : Type} (g : Geom) (d : ℚ) :
    (initialInstance (V := V) g d) "_input_geom" = some (Val.geom g) := rfl

/-- The internal field `_interpolation_dist` of the freshly initialized
instance. -/
theorem initialInstance_interpolation_dist {V : Type} (g : Geom) (d : ℚ) :
    (initialInstance (V := V) g d) "_interpolation_dist" = some (Val.rat |d|) := rfl

/-- The internal field `_min_x` of the freshly initialized instance. -/
theorem initialInstance_min_x {V : Type} (g : Geom) (d : ℚ) :
    (initialInstance (V := V) g d) "_min_x" = some (Val.int (getReductionCoordinates g).1) := rfl

/-- The internal field `_min_y` of the freshly initialized instance. -/
theorem initialInstance_min_y {V : Type} (g : Geom) (d : ℚ) :
    (initialInstance (V := V) g d) "_min_y" = some (Val.int (getReductionCoordinates g).2) := rfl

/-- A key that is not an internal field is absent from the freshly
initialized instance. -/
theorem initialInstance_lookup_not_internal {V : Type} (g : Geom) (d : ℚ) (k : String)
    (hk : k ∉ internalFields) : (initialInstance (V := V) g d) k = none := by
  simp only [internalFields, List.mem_cons, List.not_mem_nil, or_false, not_or] at hk
  obtain ⟨h1, h2, h3, h4⟩ := hk
  simp [initialInstance, pySetattr, emptyAttrs, h1, h2, h3, h4]

/-- Forgetting the attribute dict of a packaged pipeline outcome gives
back the pipeline outcome. -/
theorem geomsOf_map_mk {V : Type} (x : Option (Except CenterlineError (List (List Pt))))
    (inst : PyAttrs V) :
    geomsOf (x.map (fun r => r.map (fun pieces => CenterlineResult.mk inst pieces))) = x := by
  cases x with
  | none => rfl
  | some e =>
    cases e with
    | error a => rfl
    | ok pieces => rfl

/-- A successful construction's instance dict is the initialized
instance overwritten by the caller attributes. -/
theorem pyInit_ok_inst {V : Type} (ops : GeometryOps) (g : Geom) (d : ℚ)
    (attrs : List (String × Val V)) (r : CenterlineResult V)
    (h : pyInit ops g d attrs = some (Except.ok r)) :
    r.inst = assignAttributesToInstance (initialInstance g d) attrs := by
  by_cases hv : inputGeometryIsValid g = false
  · simp [pyInit, hv] at h
  · simp only [pyInit, if_neg hv] at h
    split at h
    · rename_i g2 dist2 mx2 my2 heq1 heq2 heq3 heq4
      cases hc : constructCenterline ops g2 dist2 mx2 my2 with
      | none => rw [hc] at h; exact absurd h (by simp)
      | some e =>
        rw [hc] at h
        cases e with
        | error err => exact absurd h (by simp [Except.map])
        | ok pieces =>
          simp only [Option.map_some, Except.map] at h
          have hr := Option.some.inj h
          have hr2 := Except.ok.inj hr
          rw [← hr2]
    · exact absurd h (by simp)

end AttrLemmas

section ClaimC5

/-- Claim C5: a non-polygonal input always fails with
`InvalidInputType`; the failure is produced before the reduction origin
or any densification is computed, so the outcome carries no partial
result and is independent of the external numeric capabilities. -/
theorem invalid_input_fails_first {V : Type} (ops ops2 : GeometryOps) (g : Geom) (d : ℚ)
    (attrs : List (String × Val V)) (h : inputGeometryIsValid g = false) :
    pyInit ops g d attrs = some (Except.error CenterlineError.invalidInputType) ∧
      pyInit ops g d attrs = pyInit ops2 g d attrs := by
  have key : ∀ o : GeometryOps,
      pyInit (V := V) o g d attrs = some (Except.error CenterlineError.invalidInputType) := by
    intro o
    simp [pyInit, h]
  exact ⟨key ops, (key ops).trans (key ops2).symm⟩

/-- Witness for claim C5: a line-string input with interpolation
distance 0 (which would make the densifier loop diverge) still fails
immediately, identically under two different capability sets. -/
theorem invalid_input_fails_first_witness :
    inputGeometryIsValid lineGeom = false ∧
      (pyInit (V := Nat) opsA lineGeom 0 [] =
          some (Except.error CenterlineError.invalidInputType) ∧
        pyInit (V := Nat) opsA lineGeom 0 [] = pyInit (V := Nat) opsB lineGeom 0 []) :=
  ⟨rfl, invalid_input_fails_first opsA opsB lineGeom 0 [] rfl⟩

end ClaimC5

section ClaimC10

/-- Claim C10: two constructions with the same input geometry and
interpolation distance but different attribute maps compute the same
line geometry, provided neither map overwrites one of the internal
fields `_input_geom`, `_interpolation_dist`, `_min_x`, `_min_y`:
attributes only add lookups and never influence the centerline
computation. -/
theorem attributes_do_not_influence_geometry {V : Type} (ops : GeometryOps) (g : Geom)
    (d : ℚ) (a1 a2 : List (String × Val V))
    (h1 : ∀ kv ∈ a1, kv.1 ∉ internalFields) (h2 : ∀ kv ∈ a2, kv.1 ∉ internalFields) :
    geomsOf (pyInit ops g d a1) = geomsOf (pyInit ops g d a2) := by
  have key : ∀ a : List (String × Val V), (∀ kv ∈ a, kv.1 ∉ internalFields) →
      geomsOf (pyInit ops g d a) =
        (if inputGeometryIsValid g = false then
          some (Except.error CenterlineError.invalidInputType)
        else
          constructCenterline ops g |d|
            (getReductionCoordinates g).1 (getReductionCoordinates g).2) := by
    intro a ha
    by_cases hv : inputGeometryIsValid g = false
    · simp [pyInit, geomsOf, hv, Except.map]
    · have hne : ∀ k : String, k ∈ internalFields → ∀ kv ∈ a, kv.1 ≠ k := by
        intro k hkmem kv hkv heq
        exact ha kv hkv (heq ▸ hkmem)
      have e1 : assignAttributesToInstance (initialInstance (V := V) g d) a "_input_geom" =
          some (Val.geom g) := by
        rw [assignAttributes_lookup_of_ne a _ _ (hne _ (by simp [internalFields]))]
        exact initialInstance_input_geom g d
      have e2 : assignAttributesToInstance (initialInstance (V := V) g d) a
          "_interpolation_dist" = some (Val.rat |d|) := by
        rw [assignAttributes_lookup_of_ne a _ _ (hne _ (by simp [internalFields]))]
        exact initialInstance_interpolation_dist g d
      have e3 : assignAttributesToInstance (initialInstance (V := V) g d) a "_min_x" =
          some (Val.int (getReductionCoordinates g).1) := by
        rw [assignAttributes_lookup_of_ne a _ _ (hne _ (by simp [internalFields]))]
        exact initialInstance_min_x g d
      have e4 : assignAttributesToInstance (initialInstance (V := V) g d) a "_min_y" =
          some (Val.int (getReductionCoordinates g).2) := by
        rw [assignAttributes_lookup_of_ne a _ _ (hne _ (by simp [internalFields]))]
        exact initialInstance_min_y g d
      rw [if_neg hv]
      simp only [pyInit, if_neg hv]
      rw [e1, e2, e3, e4]
      rw [geomsOf_map_mk]
  rw [key a1 h1, key a2 h2]

/-- Witness for claim C10: an attribute map carrying one harmless key
versus the empty map give the same geometry. -/
theorem attributes_do_not_influence_geometry_witness :
    (∀ kv ∈ [("name", Val.user (5 : Nat))], kv.1 ∉ internalFields) ∧
      (∀ kv ∈ ([] : List (String × Val Nat)), kv.1 ∉ internalFields) ∧
      geomsOf (pyInit opsA sqGeom 1 [("name", Val.user (5 : Nat))]) =
        geomsOf (pyInit opsA sqGeom 1 ([] : List (String × Val Nat))) := by
  refine ⟨?_, ?_, ?_⟩
  · intro kv hkv
    simp only [List.mem_singleton] at hkv
    rw [hkv]
    decide
  · intro kv hkv
    exact absurd hkv (List.not_mem_nil kv)
  · refine attributes_do_not_influence_geometry opsA sqGeom 1 _ _ ?_ ?_
    · intro kv hkv
      simp only [List.mem_singleton] at hkv
      rw [hkv]
      decide
    · intro kv hkv
      exact absurd hkv (List.not_mem_nil kv)

end ClaimC10

section ClaimC8

/-- Claim C8: after a successful construction, every supplied attribute
key is retrievable with exactly the (last) value supplied for it, and a
key neither supplied nor among the internal fields the result defines
is absent. -/
theorem attribute_passthrough {V : Type} (ops : GeometryOps) (g : Geom) (d : ℚ)
    (attrs : List (String × Val V)) (h : isOkResult (pyInit ops g d attrs) = true) :
    (∀ (k : String) (v : Val V), suppliedValue attrs k = some v →
      outcomeGetattr (pyInit ops g d attrs) k = some v) ∧
      (∀ k : String, suppliedValue attrs k = none → k ∉ internalFields →
        outcomeGetattr (pyInit ops g d attrs) k = none) := by
  cases ho : pyInit (V := V) ops g d attrs with
  | none => rw [ho] at h; exact absurd h (by simp [isOkResult])
  | some e =>
    cases e with
    | error err => rw [ho] at h; exact absurd h (by simp [isOkResult])
    | ok r =>
      have hinst := pyInit_ok_inst ops g d attrs r ho
      constructor
      · intro k v hk
        show resultGetattr r k = some v
        rw [resultGetattr, hinst]
        exact assignAttributes_lookup_of_supplied attrs _ k v hk
      · intro k hk hkint
        show resultGetattr r k = none
        rw [resultGetattr, hinst, assignAttributes_lookup_of_none attrs _ k hk]
        exact initialInstance_lookup_not_internal g d k hkint

/-- Witness for claim C8: a successful concrete construction with one
supplied attribute; the supplied key is retrievable with its value, an
unsupplied non-internal key is absent. -/
theorem attribute_passthrough_witness :
    isOkResult (pyInit (V := Nat) opsA sqGeom 1 [("name", Val.user 7)]) = true ∧
      suppliedValue [("name", Val.user (7 : Nat))] "name" = some (Val.user 7) ∧
      outcomeGetattr (pyInit (V := Nat) opsA sqGeom 1 [("name", Val.user 7)]) "name" =
        some (Val.user 7) ∧
      suppliedValue [("name", Val.user (7 : Nat))] "color" = none ∧
      outcomeGetattr (pyInit (V := Nat) opsA sqGeom 1 [("name", Val.user 7)]) "color" =
        none := by
  have h1 : isOkResult (pyInit (V := Nat) opsA sqGeom 1 [("name", Val.user 7)]) = true := by
    with_unfolding_all decide
  have h2 : suppliedValue [("name", Val.user (7 : Nat))] "name" = some (Val.user 7) := by
    with_unfolding_all decide
  have h4 : suppliedValue [("name", Val.user (7 : Nat))] "color" = none := by
    with_unfolding_all decide
  refine ⟨h1, h2, ?_, h4, ?_⟩
  · exact (attribute_passthrough opsA sqGeom 1 [("name", Val.user 7)] h1).1 "name"
      (Val.user 7) h2
  · exact (attribute_passthrough opsA sqGeom 1 [("name", Val.user 7)] h1).2 "color" h4
      (by decide)

end ClaimC8

section ClaimC1

/-- Claim C1 (counterexample): a successful construction whose merged
multi-line has only one line piece.  Two segments survive the filter
(so the `len(linestrings) < 2` check passes), and the union merges the
touching collinear segments into a single piece; construction succeeds
with fewer than 2 line pieces after merging, refuting the claim that
every successful result has at least 2 pieces after merging. -/
theorem merged_result_below_two_pieces :
    geomsOf (pyInit (V := Nat) opsMerge sqGeom 1 []) =
        some (Except.ok [[(1, 1), (3, 1)]]) ∧
      ([[((1 : ℚ), (1 : ℚ)), (3, 1)]] : List (List Pt)).length < 2 := by
  constructor
  · with_unfolding_all decide
  · decide

/-- Claim C1 (amended): construction fails with `TooFewRidges` exactly
when fewer than 2 segments survive the ridge filter; the check
precedes merging, so it counts the surviving segments, not the line
pieces of the merged multi-line. -/
theorem tooFewRidges_iff_fewer_than_two_surviving (ops : GeometryOps) (g : Geom)
    (dist : ℚ) (mx my : ℤ) (borders : List Pt)
    (hB : getDensifiedBorders ops g dist mx my = some borders) :
    constructCenterline ops g dist mx my = some (Except.error CenterlineError.tooFewRidges) ↔
      (ridgeLinestrings ops g mx my
        (ops.voronoi borders).1 (ops.voronoi borders).2).length < 2 := by
  have hV : getVoronoiVerticesAndRidges ops g dist mx my = some (ops.voronoi borders) := by
    rw [getVoronoiVerticesAndRidges, hB]
    rfl
  simp only [constructCenterline, hV]
  by_cases hl : (ridgeLinestrings ops g mx my
      (ops.voronoi borders).1 (ops.voronoi borders).2).length < 2
  · simp [hl]
  · simp [hl]

/-- Witness for the amended claim C1 at a concrete terminating
input. -/
theorem tooFewRidges_iff_fewer_than_two_surviving_witness :
    getDensifiedBorders opsMerge sqGeom 1 0 0 =
        some [(0, 0), (1, 1), (2, 2), (3, 3), (0, 0)] ∧
      (constructCenterline opsMerge sqGeom 1 0 0 =
          some (Except.error CenterlineError.tooFewRidges) ↔
        (ridgeLinestrings opsMerge sqGeom 0 0
          (opsMerge.voronoi [(0, 0), (1, 1), (2, 2), (3, 3), (0, 0)]).1
          (opsMerge.voronoi [(0, 0), (1, 1), (2, 2), (3, 3), (0, 0)]).2).length < 2) := by
  have hB : getDensifiedBorders opsMerge sqGeom 1 0 0 =
      some [(0, 0), (1, 1), (2, 2), (3, 3), (0, 0)] := by
    with_unfolding_all decide
  exact ⟨hB, tooFewRidges_iff_fewer_than_two_surviving opsMerge sqGeom 1 0 0 _ hB⟩

end ClaimC1

section ClaimC3

/-- Claim C3: every segment the ridge filter keeps passed the
containment test against the original (non-densified) input geometry,
and therefore, for any containment notion `W` preserved by the union
capability (the merger contract: the union of segments lying within
the shape is a multi-line lying within the shape), every line piece of
a successfully constructed result satisfies `W`. -/
theorem output_pieces_within_input_geometry (ops : GeometryOps) (g : Geom) (dist : ℚ)
    (mx my : ℤ) (pieces : List (List Pt)) (W : List Pt → Prop)
    (hUnion : ∀ segs : List (Pt × Pt), (∀ s ∈ segs, ops.within s g = true) →
      ∀ piece ∈ ops.unionLines segs, W piece)
    (hOk : constructCenterline ops g dist mx my = some (Except.ok pieces)) :
    (∀ (vertices : List Pt) (rs : List (ℤ × ℤ)) (ls : Pt × Pt),
      ls ∈ ridgeLinestrings ops g mx my vertices rs → ops.within ls g = true) ∧
      ∀ piece ∈ pieces, W piece := by
  refine ⟨fun vertices rs ls hls =>
    mem_ridgeLinestrings_within ops g mx my vertices rs ls hls, ?_⟩
  cases hb : getDensifiedBorders ops g dist mx my with
  | none =>
    rw [constructCenterline, getVoronoiVerticesAndRidges, hb] at hOk
    exact absurd hOk (by simp)
  | some borders =>
    have hV : getVoronoiVerticesAndRidges ops g dist mx my = some (ops.voronoi borders) := by
      rw [getVoronoiVerticesAndRidges, hb]
      rfl
    simp only [constructCenterline, hV] at hOk
    by_cases hl : (ridgeLinestrings ops g mx my
        (ops.voronoi borders).1 (ops.voronoi borders).2).length < 2
    · rw [if_pos hl] at hOk
      exact absurd hOk (by simp)
    · rw [if_neg hl] at hOk
      have hpieces : ops.unionLines (ridgeLinestrings ops g mx my
          (ops.voronoi borders).1 (ops.voronoi borders).2) = pieces :=
        Except.ok.inj (Option.some.inj hOk)
      intro piece hpiece
      rw [← hpieces] at hpiece
      exact hUnion _ (fun s hs => mem_ridgeLinestrings_within ops g mx my _ _ s hs)
        piece hpiece

/-- Witness for claim C3 at a concrete successful construction. -/
theorem output_pieces_within_input_geometry_witness :
    (∀ segs : List (Pt × Pt), (∀ s ∈ segs, opsA.within s sqGeom = true) →
      ∀ piece ∈ opsA.unionLines segs, True) ∧
      constructCenterline opsA sqGeom 1 0 0 =
        some (Except.ok [[(1, 1), (2, 1)], [(2, 1), (3, 1)]]) ∧
      ((∀ (vertices : List Pt) (rs : List (ℤ × ℤ)) (ls : Pt × Pt),
        ls ∈ ridgeLinestrings opsA sqGeom 0 0 vertices rs →
          opsA.within ls sqGeom = true) ∧
        ∀ piece ∈ ([[(1, 1), (2, 1)], [(2, 1), (3, 1)]] : List (List Pt)), True) := by
  have hOk : constructCenterline opsA sqGeom 1 0 0 =
      some (Except.ok [[(1, 1), (2, 1)], [(2, 1), (3, 1)]]) := by
    with_unfolding_all decide
  have hU : ∀ segs : List (Pt × Pt), (∀ s ∈ segs, opsA.within s sqGeom = true) →
      ∀ piece ∈ opsA.unionLines segs, True := fun _ _ _ _ => trivial
  exact ⟨hU, hOk,
    output_pieces_within_input_geometry opsA sqGeom 1 0 0 _ (fun _ => True) hU hOk⟩

end ClaimC3

end Centerline
